import Mathlib

/-!
Verification of the science-parser enrichment pipeline.

This file gives a shallow embedding, in Lean 4, of the enrichment core of the
repository: the license classifier `analyze_wiley_license_url`, the
availability probe `check_sci_hub`, the impact-score resolver `if_parser`
(from src/if_parser.py, embedded here as `ifParser`), and the orchestrator
`process_articles` (all from src/main.py unless noted).  Network and HTML
boundaries are modelled as oracle functions supplied as parameters; all Python
string operations used by the source are re-implemented over `List Char` so
that every definition evaluates by kernel reduction.
-/

set_option autoImplicit false

namespace ScienceParser

/-! ### String primitives

Python string operations used by the source, re-implemented over the
character list of a `String`.  `containsSub s pat` is the Python substring
test `pat in s`; `toLowerStr` is `str.lower` (ASCII, which covers every
marker the classifier tests); `trimSpaces` is `str.strip` for the
space-separated author names; `replaceSpacePlus` and `removeHyphens` are the
two single-character `str.replace` calls at main.py line 132. -/

def toLowerStr (s : String) : String := ⟨s.data.map Char.toLower⟩

def startsWithL : List Char → List Char → Bool
  | [], _ => true
  | _ :: _, [] => false
  | p :: ps, c :: cs => p == c && startsWithL ps cs

def containsSubL (pat : List Char) : List Char → Bool
  | [] => pat.isEmpty
  | c :: rest => startsWithL pat (c :: rest) || containsSubL pat rest

def containsSub (s pat : String) : Bool := containsSubL pat.data s.data

def trimSpaces (s : String) : String :=
  ⟨((s.data.dropWhile (· == ' ')).reverse.dropWhile (· == ' ')).reverse⟩

def replaceSpacePlus (s : String) : String :=
  ⟨s.data.map (fun c => if c == ' ' then '+' else c)⟩

def removeHyphens (s : String) : String :=
  ⟨s.data.filter (fun c => !(c == '-'))⟩

/-! ### License classifier (main.py lines 34-87) -/

/-- The `LicenseType` enum of main.py lines 34-37. -/
inductive LicenseType
  | NOT_FREE
  | FREE
  | UNKNOWN
deriving DecidableEq

/-- The `.value` string of each `LicenseType` member. -/
def LicenseType.value : LicenseType → String
  | .NOT_FREE => "NOT FREE"
  | .FREE => "FREE"
  | .UNKNOWN => "UNKNOWN"

/-- `analyze_wiley_license_url` of main.py lines 63-87.  The Python guard
`if not license_url` is the emptiness test, since the pipeline always passes
a `str` here.  Returns the `.value` string of the chosen enum member, exactly
as the source does. -/
def analyze_wiley_license_url (license_url : String) : String :=
  if license_url = "" then LicenseType.UNKNOWN.value
  else
    let url_lower := toLowerStr license_url
    if containsSub url_lower "creativecommons.org" then LicenseType.FREE.value
    else if containsSub url_lower "wiley.com" &&
        (containsSub url_lower "terms" || containsSub url_lower "copyright") then
      LicenseType.NOT_FREE.value
    else if ["rights-and-permissions", "subscription", "copyright"].any
        (fun x => containsSub url_lower x) then
      LicenseType.NOT_FREE.value
    else if ["publicdomain", "pd", "cc0"].any (fun x => containsSub url_lower x) then
      LicenseType.FREE.value
    else LicenseType.NOT_FREE.value

/-! ### Availability probe (main.py lines 90-102) -/

/-- The exceptions the probe request can raise: `asyncio.TimeoutError` on
timeout expiry, or any other network/transport exception. -/
inductive NetExn
  | timeoutError
  | otherError
deriving DecidableEq

/-- Whether `except Exception` catches the exception.  Both modelled
exceptions are subclasses of `Exception` in Python; in particular
`asyncio.TimeoutError` subclasses `Exception`, which is why the second
`except asyncio.TimeoutError` clause at main.py lines 100-102 is unreachable. -/
def NetExn.isSubclassOfException : NetExn → Bool
  | .timeoutError => true
  | .otherError => true

/-- Whether `except asyncio.TimeoutError` catches the exception. -/
def NetExn.isAsyncioTimeout : NetExn → Bool
  | .timeoutError => true
  | .otherError => false

/-- Outcome of the `session.get` call inside `check_sci_hub`: a response body,
or a raised exception. -/
inductive FetchOutcome
  | ok (content : String)
  | exn (e : NetExn)
deriving DecidableEq

/-- Python exceptions that can escape the embedded functions: `IndexError`
from list indexing, `KeyError` from a dict lookup, or an uncaught exception
from a request. -/
inductive PyErr
  | indexError
  | keyError
  | uncaught (e : NetExn)
deriving DecidableEq

/-- `check_sci_hub` of main.py lines 90-102.  The `except` clauses are tried
in source order: `except Exception` first (line 97), then
`except asyncio.TimeoutError` (line 100).  An exception caught by neither
would propagate (the `.error` branch). -/
def check_sci_hub (fetch : String → FetchOutcome) (doi : String) : Except PyErr String :=
  if doi = "" ∨ doi = "Не найдено" then .ok "Doi не найдено"
  else
    match fetch doi with
    | .ok content =>
      .ok (if !(containsSub content "Не найдено") then "Найдено" else "Не найдено")
    | .exn e =>
      if e.isSubclassOfException then .ok "Ошибка"
      else if e.isAsyncioTimeout then .ok "Таймаут"
      else .error (.uncaught e)

/-! ### Impact-score resolver (src/if_parser.py) -/

/-- Outcome of handling one journal key in the resolver: the three
`requests` exceptions caught at if_parser.py lines 22-34 (HTTPError, Timeout,
any other exception), a failure of the extraction block at lines 38-45
(indexing into the parsed page, or the `float` conversion, both inside the
bare `except`), or a successfully extracted score. -/
inductive ResolveOutcome
  | httpError
  | timeoutError
  | otherError
  | extractFail
  | score (q : ℚ)
deriving DecidableEq

/-- `if_parser` of src/if_parser.py lines 13-46 (renamed `ifParser` here).
Iterates the journal dict in insertion order.  A transport failure stores the
sentinel -1 for that key and continues; an extraction failure prints a message
and executes `break`, so the keys from the failing one onwards are absent
from the returned dict and no error value is produced. -/
def ifParser (resolve : String → ResolveOutcome) : List (String × String) → List (String × ℚ)
  | [] => []
  | (issn, journal_name) :: rest =>
    match resolve journal_name with
    | .httpError => (issn, -1) :: ifParser resolve rest
    | .timeoutError => (issn, -1) :: ifParser resolve rest
    | .otherError => (issn, -1) :: ifParser resolve rest
    | .extractFail => []
    | .score q => (issn, q) :: ifParser resolve rest

/-- The catalog-page fetches that `ifParser` actually issues (the
`requests.get` at if_parser.py line 19), in order: one per key until the loop
ends or `break`s; the key whose extraction fails is still fetched. -/
def ifParserCalls (resolve : String → ResolveOutcome) : List (String × String) → List String
  | [] => []
  | (_, journal_name) :: rest =>
    match resolve journal_name with
    | .httpError => journal_name :: ifParserCalls resolve rest
    | .timeoutError => journal_name :: ifParserCalls resolve rest
    | .otherError => journal_name :: ifParserCalls resolve rest
    | .extractFail => [journal_name]
    | .score _ => journal_name :: ifParserCalls resolve rest

/-! ### Data model (main.py lines 39-60 and the crossref item shape) -/

/-- One entry of the `author` list of a crossref item: the `given` and
`family` keys may each be absent (`a.get(..., '')` at main.py line 113). -/
structure PyAuthor where
  given : Option String
  family : Option String
deriving DecidableEq

/-- A raw crossref item as read by `process_articles` (main.py lines
110-117).  Each field is `none` when the corresponding key is absent from the
item dict.  A `license` entry is modelled by its URL string. -/
structure RawItem where
  title : Option (List String)
  author : Option (List PyAuthor)
  license : Option (List String)
  containerTitle : Option (List String)
  issn : Option (List String)
  doi : Option String
deriving DecidableEq

/-- The `Article` dataclass of main.py lines 39-49. -/
structure Article where
  issn : String
  authors : List String
  title : String
  doi : String
  access : String
  journal_title : String
  journal_issn : String
  impact_factor : ℚ
  pirate_resource : String
deriving DecidableEq

/-- The per-item values computed by the loop body at main.py lines 111-117,
before the `Article` is constructed. -/
structure Fields where
  title : String
  author_names : List String
  access : String
  journal_title : String
  journal_issn : String
  doi : String
deriving DecidableEq

/-- Python list indexing `l[i]`: raises `IndexError` when out of range. -/
def listGet {α : Type} (l : List α) (i : Nat) : Except PyErr α :=
  match l.get? i with
  | some x => .ok x
  | none => .error .indexError

/-- The field extraction of main.py lines 111-117, in source order.
Each `article.get(key, default)` becomes `Option.getD`; each `[i]` indexing
becomes `listGet` and can raise `IndexError`.  In particular the journal
identifier is `article.get('ISSN', [...])[1]`: the second element of the
`ISSN` list when present, the second default entry when absent. -/
def extractFields (a : RawItem) : Except PyErr Fields := do
  let title ← listGet (a.title.getD ["Без названия. Название не найдено"]) 0
  let author_names := ((a.author.getD []).take 2).map
    (fun au => trimSpaces ((au.given.getD "") ++ " " ++ (au.family.getD "")))
  let license_url ← listGet (a.license.getD ["unknown"]) 0
  let access := analyze_wiley_license_url license_url
  let journal_title ← listGet (a.containerTitle.getD [""]) 0
  let journal_issn ← listGet (a.issn.getD ["not-found-print-issn", "not-found-online-issn"]) 1
  let doi := a.doi.getD "Не найдено"
  return { title := title, author_names := author_names, access := access,
           journal_title := journal_title, journal_issn := journal_issn, doi := doi }

/-- The `Article(...)` construction at main.py lines 119-129. -/
def mkArticle (f : Fields) : Article :=
  { issn := f.journal_issn, title := f.title, authors := f.author_names,
    access := f.access, journal_title := f.journal_title,
    journal_issn := f.journal_issn, doi := f.doi,
    pirate_resource := "Не проверено", impact_factor := -1 }

/-- Equality test between a Python `str` and a Python `Enum` member, as
written at main.py line 133 (`license != LicenseType.FREE`): there `license`
holds the string returned by `analyze_wiley_license_url` while
`LicenseType.FREE` is an enum member.  In Python a `str` never compares equal
to an `Enum` member (`str.__eq__` returns `NotImplemented` for an `Enum`
operand and the default `Enum.__eq__` is identity-based), so this test is
`False` for every string, making the `!=` at line 133 always `True`. -/
def pyStrEnumEq (_s : String) (_e : LicenseType) : Bool := false

/-- The dict value built at main.py line 132. -/
def journalSlug (f : Fields) : String :=
  replaceSpacePlus f.journal_title ++ "-p-" ++ removeHyphens f.journal_issn

/-- One step of building `journal_fullname` (main.py lines 131-132): insert
the key only if absent, preserving insertion order. -/
def addJournal (jf : List (String × String)) (f : Fields) : List (String × String) :=
  if (jf.lookup f.journal_issn).isSome then jf
  else jf ++ [(f.journal_issn, journalSlug f)]

/-- The `journal_fullname` dict accumulated over the whole batch, as an
insertion-ordered association list with unique keys (Python dict order). -/
def buildJournalFullname (fs : List Fields) : List (String × String) :=
  fs.foldl addJournal []

/-- List annotated with 0-based positions, mirroring `enumerate` at
main.py line 110. -/
def withIdx {α : Type} : Nat → List α → List (Nat × α)
  | _, [] => []
  | k, a :: as => (k, a) :: withIdx (k + 1) as

/-- The task-creation condition at main.py line 133:
`len(pirate_resources) > 0 and license != LicenseType.FREE`. -/
def probeCond (pirate_resources : List String) (f : Fields) : Bool :=
  decide (0 < pirate_resources.length) && !(pyStrEnumEq f.access LicenseType.FREE)

/-- The `tasks` list built at main.py lines 133-135: one
`check_sci_hub(session, doi)` task per item satisfying `probeCond`, paired
with the position of the `Article` object it will update. -/
def tasksOf (pirate_resources : List String) (fs : List Fields) : List (Nat × String) :=
  ((withIdx 0 fs).filter (fun p => probeCond pirate_resources p.2)).map
    (fun p => (p.1, p.2.doi))

/-- Assign `pirate_resource` of the article at one position (the mutation
`article_obj.pirate_resource = pirate_result` at main.py line 140). -/
def setPirate : List Article → Nat → String → List Article
  | [], _, _ => []
  | a :: as, 0, s => { a with pirate_resource := s } :: as
  | a :: as, i + 1, s => a :: setPirate as i s

/-- The string a completed probe task yields (total, because `check_sci_hub`
catches every modelled exception). -/
def probeResult (fetch : String → FetchOutcome) (doi : String) : String :=
  match check_sci_hub fetch doi with
  | .ok s => s
  | .error _ => ""

/-- The join loop at main.py lines 138-140: await each task in the given
order and write its result onto its own article.  An exception re-raised by
an awaited task would propagate. -/
def runTasks (fetch : String → FetchOutcome) :
    List (Nat × String) → List Article → Except PyErr (List Article)
  | [], arts => .ok arts
  | (i, doi) :: rest, arts => do
    let r ← check_sci_hub fetch doi
    runTasks fetch rest (setPirate arts i r)

/-- Pure form of the join loop (no task can actually raise). -/
def applyTasks (fetch : String → FetchOutcome) (tasks : List (Nat × String))
    (arts : List Article) : List Article :=
  tasks.foldl (fun acc p => setPirate acc p.1 (probeResult fetch p.2)) arts

/-- The impact-factor merge at main.py lines 144-145:
`article.impact_factor = if_by_journal[article.journal_issn]` raises
`KeyError` when the key is absent from the resolver output. -/
def assignOne (if_by_journal : List (String × ℚ)) (a : Article) : Except PyErr Article :=
  match if_by_journal.lookup a.journal_issn with
  | some v => .ok { a with impact_factor := v }
  | none => .error .keyError

/-- Effectful map over a list in order, stopping at the first error
(the semantics of a Python `for` loop whose body can raise). -/
def mapME {α β : Type} (f : α → Except PyErr β) : List α → Except PyErr (List β)
  | [] => .ok []
  | a :: as => do
    let b ← f a
    let bs ← mapME f as
    return b :: bs

/-- `process_articles` of main.py lines 104-147.  The three network-facing
collaborators are oracle parameters: `fetch` is the sci-hub GET inside
`check_sci_hub`, `resolve` is the per-journal fetch-and-extract of the
resolver.  Tasks are awaited in creation order, as at lines 138-139. -/
def process_articles (pirate_resources : List String) (fetch : String → FetchOutcome)
    (resolve : String → ResolveOutcome) (items : List RawItem) :
    Except PyErr (List Article) := do
  let fs ← mapME extractFields items
  let arts := fs.map mkArticle
  let probed ← runTasks fetch (tasksOf pirate_resources fs) arts
  let if_by_journal := ifParser resolve (buildJournalFullname fs)
  mapME (assignOne if_by_journal) probed

/-- `process_articles` generalized over the order in which probe results are
applied to the articles.  The event loop completes the concurrently launched
tasks in an arbitrary order; each result is bound to the article whose task
produced it, so this models one enrichment run whose probes complete in the
order `order`.  `process_articles` itself is the instance where `order` is
the task-creation order. -/
def process_articles_order (order : List (Nat × String)) (_pirate_resources : List String)
    (fetch : String → FetchOutcome) (resolve : String → ResolveOutcome)
    (items : List RawItem) : Except PyErr (List Article) := do
  let fs ← mapME extractFields items
  let arts := fs.map mkArticle
  let probed ← runTasks fetch order arts
  let if_by_journal := ifParser resolve (buildJournalFullname fs)
  mapME (assignOne if_by_journal) probed

/-- Deduplication keeping first occurrences, relative to an accumulator of
already-seen keys.  `dedupAcc [] l` lists the distinct elements of `l` in
first-occurrence order. -/
def dedupAcc (seen : List String) : List String → List String
  | [] => []
  | x :: xs => if seen.contains x then dedupAcc seen xs else x :: dedupAcc (x :: seen) xs

/-- The distinct non-empty journal identifiers of a batch, following the
words of the claimed invariant (for comparison with what the code builds). -/
def claimDistinctNonemptyIds (fs : List Fields) : List String :=
  dedupAcc [] ((fs.map Fields.journal_issn).filter (fun s => !(s == "")))

/-- The record components that identify which input item a record came from
and its classification: title, DOI, journal identifier, access category. -/
def coreView (a : Article) : String × String × String × String :=
  (a.title, a.doi, a.journal_issn, a.access)

/-- The same components read off the extracted per-item fields. -/
def fieldsView (f : Fields) : String × String × String × String :=
  (f.title, f.doi, f.journal_issn, f.access)

/-! ### Concrete inputs used by the closed evaluation theorems below -/

/-- A probe fetch whose response body lacks the "Не найдено" marker,
so the probe classifies the article as found. -/
def fetchFound : String → FetchOutcome := fun _ => .ok "full text page"

/-- A probe fetch that raises `asyncio.TimeoutError`. -/
def fetchTimeout : String → FetchOutcome := fun _ => .exn .timeoutError

/-- A probe fetch that raises a non-timeout transport exception. -/
def fetchBroken : String → FetchOutcome := fun _ => .exn .otherError

/-- A resolver oracle that extracts the score 2 for every journal page. -/
def resolveConst : String → ResolveOutcome := fun _ => .score 2

/-- An item carrying a Creative-Commons license URL and a DOI. -/
def itemCC : RawItem :=
  { title := some ["Free article"], author := none,
    license := some ["https://creativecommons.org/licenses/by/4.0"],
    containerTitle := some ["Journal One"],
    issn := some ["1111-1111", "2222-2222"], doi := some "10.1/x" }

/-- Three items in three distinct journals A, B, C. -/
def itemA : RawItem :=
  { title := some ["Paper a"], author := none, license := some ["u"],
    containerTitle := some ["Journal A"], issn := some ["p", "1111-1111"],
    doi := some "10.2/a" }

def itemB : RawItem :=
  { title := some ["Paper b"], author := none, license := some ["u"],
    containerTitle := some ["Journal B"], issn := some ["p", "2222-2222"],
    doi := some "10.2/b" }

def itemC : RawItem :=
  { title := some ["Paper c"], author := none, license := some ["u"],
    containerTitle := some ["Journal C"], issn := some ["p", "3333-3333"],
    doi := some "10.2/c" }

/-- A resolver oracle that succeeds on journal A and then hits the
structural-extraction failure on every other page. -/
def resolveC2 : String → ResolveOutcome := fun name =>
  if name = "Journal+A-p-11111111" then .score 5 else .extractFail

/-- A small journal dict for exercising the resolver directly. -/
def jfC3 : List (String × String) := [("i1", "n1"), ("i2", "n2"), ("i3", "n3")]

/-- Resolver oracle: extraction breaks on the second of three journals. -/
def resolveC3a : String → ResolveOutcome := fun name =>
  if name = "n1" then .score 5 else if name = "n2" then .extractFail else .score 7

/-- Resolver oracle: the fetch of the second journal fails with an HTTP
error instead. -/
def resolveC3b : String → ResolveOutcome := fun name =>
  if name = "n1" then .score 5 else if name = "n2" then .httpError else .score 7

/-- The extracted fields of the batch `[itemA, itemB, itemC]`. -/
def fsABC : List Fields :=
  match mapME extractFields [itemA, itemB, itemC] with
  | .ok l => l
  | .error _ => []

/-- An item whose `license` key is absent. -/
def itemNoLicense : RawItem :=
  { title := some ["Paper t"], author := none, license := none,
    containerTitle := some ["Journal D"], issn := some ["p", "4444-4444"],
    doi := some "10.4/x" }

/-- The record collection produced for the singleton batch `[itemNoLicense]`
with probing disabled. -/
def outNoLicense : List Article :=
  match process_articles [] fetchFound resolveConst [itemNoLicense] with
  | .ok l => l
  | .error _ => []

/-- An item whose `ISSN` list is present and has an empty second entry, so
its extracted journal identifier is the empty string. -/
def itemEmptyIssn : RawItem :=
  { title := some ["Paper e"], author := none, license := some ["u"],
    containerTitle := some ["Journal E"], issn := some ["4444-4444", ""],
    doi := some "10.8/x" }

/-- The extracted fields of the singleton batch `[itemEmptyIssn]`. -/
def fsEmptyIssn : List Fields :=
  match mapME extractFields [itemEmptyIssn] with
  | .ok l => l
  | .error _ => []

/-- Two items in the same journal, for the shared-score witness. -/
def itemB2 : RawItem :=
  { title := some ["Paper b2"], author := none, license := some ["u"],
    containerTitle := some ["Journal B"], issn := some ["p", "2222-2222"],
    doi := some "10.2/d" }

/-- The record collection produced for `[itemB, itemB2]` with probing
disabled. -/
def outShared : List Article :=
  match process_articles [] fetchFound resolveConst [itemB, itemB2] with
  | .ok l => l
  | .error _ => []

/-- A default article, used only to read elements of concrete lists. -/
def artDefault : Article :=
  { issn := "", authors := [], title := "", doi := "", access := "",
    journal_title := "", journal_issn := "", impact_factor := 0,
    pirate_resource := "" }

/-- Batch for the order-preservation witness. -/
def itemsW9 : List RawItem := [itemA, itemB]

/-- The extracted fields of `itemsW9`. -/
def fsW9 : List Fields :=
  match mapME extractFields itemsW9 with
  | .ok l => l
  | .error _ => []

/-- The probe tasks of `itemsW9` with probing enabled, applied in reversed
completion order. -/
def orderW9 : List (Nat × String) := [(1, "10.2/b"), (0, "10.2/a")]

/-- The record collection produced for `itemsW9` when the probes complete in
the order `orderW9`. -/
def outW9 : List Article :=
  match process_articles_order orderW9 ["sci-hub"] fetchFound resolveConst itemsW9 with
  | .ok l => l
  | .error _ => []

/-- An item whose `ISSN` key is present but holds a single entry. -/
def itemShortIssn : RawItem :=
  { title := some ["Paper s"], author := none, license := some ["u"],
    containerTitle := some ["Journal S"], issn := some ["1234-5678"],
    doi := some "10.10/x" }

instance exceptDecEq {ε α : Type} [DecidableEq ε] [DecidableEq α] :
    DecidableEq (Except ε α) := fun x y =>
  match x, y with
  | .ok a, .ok b =>
    if h : a = b then .isTrue (by rw [h]) else .isFalse (by intro hh; cases hh; exact h rfl)
  | .ok _, .error _ => .isFalse (by intro h; cases h)
  | .error _, .ok _ => .isFalse (by intro h; cases h)
  | .error e, .error f =>
    if h : e = f then .isTrue (by rw [h]) else .isFalse (by intro hh; cases hh; exact h rfl)

/-! ### Basic lemmas about the embedded combinators -/

theorem bindE_ok {α β : Type} (a : α) (f : α → Except PyErr β) :
    (Except.ok a >>= f : Except PyErr β) = f a := rfl

theorem bindE_error {α β : Type} (e : PyErr) (f : α → Except PyErr β) :
    (Except.error e >>= f : Except PyErr β) = .error e := rfl

theorem mapME_cons {α β : Type} (f : α → Except PyErr β) (a : α) (as : List α) :
    mapME f (a :: as) =
      (f a) >>= fun b => (mapME f as) >>= fun bs => .ok (b :: bs) := rfl

theorem mapME_ok_length {α β : Type} (f : α → Except PyErr β) :
    ∀ (l : List α) (l2 : List β), mapME f l = .ok l2 → l2.length = l.length := by
  intro l
  induction l with
  | nil =>
    intro l2 h
    rw [mapME] at h
    cases h
    rfl
  | cons a as ih =>
    intro l2 h
    rw [mapME_cons] at h
    cases hfa : f a with
    | error e => rw [hfa, bindE_error] at h; cases h
    | ok b =>
      rw [hfa, bindE_ok] at h
      cases hrest : mapME f as with
      | error e => rw [hrest, bindE_error] at h; cases h
      | ok bs =>
        rw [hrest, bindE_ok] at h
        cases h
        simp [ih bs hrest]

theorem mapME_ok_get {α β : Type} (f : α → Except PyErr β) :
    ∀ (l : List α) (l2 : List β), mapME f l = .ok l2 →
      ∀ (i : Nat) (a : α), l.get? i = some a →
        ∃ b, f a = .ok b ∧ l2.get? i = some b := by
  intro l
  induction l with
  | nil =>
    intro l2 h i a ha
    cases i <;> cases ha
  | cons x as ih =>
    intro l2 h i a ha
    rw [mapME_cons] at h
    cases hfa : f x with
    | error e => rw [hfa, bindE_error] at h; cases h
    | ok b =>
      rw [hfa, bindE_ok] at h
      cases hrest : mapME f as with
      | error e => rw [hrest, bindE_error] at h; cases h
      | ok bs =>
        rw [hrest, bindE_ok] at h
        cases h
        cases i with
        | zero =>
          cases ha
          exact ⟨b, hfa, rfl⟩
        | succ j =>
          exact ih bs hrest j a ha

theorem mapME_ok_of_mem {α β : Type} (f : α → Except PyErr β) :
    ∀ (l : List α) (l2 : List β), mapME f l = .ok l2 →
      ∀ a, a ∈ l → ∃ b, f a = .ok b := by
  intro l
  induction l with
  | nil =>
    intro l2 _ a ha
    cases ha
  | cons x as ih =>
    intro l2 h a ha
    rw [mapME_cons] at h
    cases hfa : f x with
    | error e => rw [hfa, bindE_error] at h; cases h
    | ok b =>
      rw [hfa, bindE_ok] at h
      cases hrest : mapME f as with
      | error e => rw [hrest, bindE_error] at h; cases h
      | ok bs =>
        cases ha with
        | head => exact ⟨b, hfa⟩
        | tail _ hmem => exact ih bs hrest a hmem

theorem mapME_ok_mem_rev {α β : Type} (f : α → Except PyErr β) :
    ∀ (l : List α) (l2 : List β), mapME f l = .ok l2 →
      ∀ b, b ∈ l2 → ∃ a, a ∈ l ∧ f a = .ok b := by
  intro l
  induction l with
  | nil =>
    intro l2 h b hb
    rw [mapME] at h
    cases h
    cases hb
  | cons x as ih =>
    intro l2 h b hb
    rw [mapME_cons] at h
    cases hfa : f x with
    | error e => rw [hfa, bindE_error] at h; cases h
    | ok b0 =>
      rw [hfa, bindE_ok] at h
      cases hrest : mapME f as with
      | error e => rw [hrest, bindE_error] at h; cases h
      | ok bs =>
        rw [hrest, bindE_ok] at h
        cases h
        cases hb with
        | head => exact ⟨x, List.mem_cons_self x as, hfa⟩
        | tail _ hmem =>
          obtain ⟨a, hal, hfa2⟩ := ih bs hrest b hmem
          exact ⟨a, List.mem_cons_of_mem x hal, hfa2⟩

/-- An element of the input on which `f` fails makes the whole `mapME` fail. -/
theorem mapME_error_of_mem {α β : Type} (f : α → Except PyErr β) (l : List α) (a : α)
    (ha : a ∈ l) (e : PyErr) (hfa : f a = .error e) :
    ∀ l2, mapME f l ≠ .ok l2 := by
  intro l2 h
  obtain ⟨b, hb⟩ := mapME_ok_of_mem f l l2 h a ha
  rw [hfa] at hb
  cases hb

theorem setPirate_length (arts : List Article) :
    ∀ (i : Nat) (s : String), (setPirate arts i s).length = arts.length := by
  induction arts with
  | nil => intro i s; rfl
  | cons a as ih =>
    intro i s
    cases i with
    | zero => rfl
    | succ j => simp [setPirate, ih j s]

theorem setPirate_get_coreView (arts : List Article) :
    ∀ (i j : Nat) (s : String),
      ((setPirate arts i s).get? j).map coreView = (arts.get? j).map coreView := by
  induction arts with
  | nil => intro i j s; cases i <;> rfl
  | cons a as ih =>
    intro i j s
    cases i with
    | zero => cases j <;> rfl
    | succ i2 =>
      cases j with
      | zero => rfl
      | succ j2 => simpa [setPirate] using ih i2 j2 s

theorem setPirate_get_impact (arts : List Article) :
    ∀ (i j : Nat) (s : String),
      ((setPirate arts i s).get? j).map Article.impact_factor =
        (arts.get? j).map Article.impact_factor := by
  induction arts with
  | nil => intro i j s; cases i <;> rfl
  | cons a as ih =>
    intro i j s
    cases i with
    | zero => cases j <;> rfl
    | succ i2 =>
      cases j with
      | zero => rfl
      | succ j2 => simpa [setPirate] using ih i2 j2 s

theorem setPirate_comm (arts : List Article) :
    ∀ (i j : Nat) (s t : String), i ≠ j →
      setPirate (setPirate arts i s) j t = setPirate (setPirate arts j t) i s := by
  induction arts with
  | nil => intro i j s t _; rfl
  | cons a as ih =>
    intro i j s t hij
    cases i with
    | zero =>
      cases j with
      | zero => exact absurd rfl hij
      | succ j2 => rfl
    | succ i2 =>
      cases j with
      | zero => rfl
      | succ j2 =>
        have : i2 ≠ j2 := fun h => hij (by rw [h])
        simp [setPirate, ih i2 j2 s t this]

theorem check_sci_hub_ok (fetch : String → FetchOutcome) (doi : String) :
    check_sci_hub fetch doi = .ok (probeResult fetch doi) := by
  by_cases h : doi = "" ∨ doi = "Не найдено"
  · simp [check_sci_hub, probeResult, h]
  · rw [probeResult, check_sci_hub, if_neg h]
    cases hf : fetch doi with
    | ok content => rfl
    | exn e => cases e <;> rfl

theorem runTasks_eq_applyTasks (fetch : String → FetchOutcome) :
    ∀ (l : List (Nat × String)) (arts : List Article),
      runTasks fetch l arts = .ok (applyTasks fetch l arts) := by
  intro l
  induction l with
  | nil => intro arts; rfl
  | cons p rest ih =>
    intro arts
    obtain ⟨i, doi⟩ := p
    rw [runTasks, check_sci_hub_ok, bindE_ok]
    exact ih (setPirate arts i (probeResult fetch doi))

theorem applyTasks_cons (fetch : String → FetchOutcome) (p : Nat × String)
    (rest : List (Nat × String)) (arts : List Article) :
    applyTasks fetch (p :: rest) arts =
      applyTasks fetch rest (setPirate arts p.1 (probeResult fetch p.2)) := rfl

theorem applyTasks_get_coreView (fetch : String → FetchOutcome) :
    ∀ (l : List (Nat × String)) (arts : List Article) (j : Nat),
      ((applyTasks fetch l arts).get? j).map coreView = (arts.get? j).map coreView := by
  intro l
  induction l with
  | nil => intro arts j; rfl
  | cons p rest ih =>
    intro arts j
    rw [applyTasks_cons, ih (setPirate arts p.1 (probeResult fetch p.2)) j,
      setPirate_get_coreView arts p.1 j (probeResult fetch p.2)]

theorem applyTasks_length (fetch : String → FetchOutcome) :
    ∀ (l : List (Nat × String)) (arts : List Article),
      (applyTasks fetch l arts).length = arts.length := by
  intro l
  induction l with
  | nil => intro arts; rfl
  | cons p rest ih =>
    intro arts
    rw [applyTasks_cons, ih (setPirate arts p.1 (probeResult fetch p.2)),
      setPirate_length arts p.1 (probeResult fetch p.2)]

theorem applyTasks_perm (fetch : String → FetchOutcome) (l1 l2 : List (Nat × String))
    (hperm : List.Perm l1 l2) :
    (l2.map Prod.fst).Nodup →
      ∀ arts, applyTasks fetch l1 arts = applyTasks fetch l2 arts := by
  induction hperm with
  | nil => intro _ arts; rfl
  | cons x p ih =>
    intro hnd arts
    simp only [List.map_cons, List.nodup_cons] at hnd
    rw [applyTasks_cons, applyTasks_cons]
    exact ih hnd.2 (setPirate arts x.1 (probeResult fetch x.2))
  | swap x y l =>
    intro hnd arts
    have hxy : x.1 ≠ y.1 := by
      simp only [List.map_cons, List.nodup_cons, List.mem_cons] at hnd
      intro h
      exact hnd.1 (Or.inl h)
    rw [applyTasks_cons, applyTasks_cons, applyTasks_cons, applyTasks_cons,
      setPirate_comm arts y.1 x.1 (probeResult fetch y.2) (probeResult fetch x.2)
        (Ne.symm hxy)]
  | trans p1 p2 ih1 ih2 =>
    intro hnd arts
    have hmid := (List.Perm.nodup_iff (List.Perm.map Prod.fst p2)).mpr hnd
    exact (ih1 hmid arts).trans (ih2 hnd arts)

theorem withIdx_map_fst {α : Type} :
    ∀ (l : List α) (k : Nat), (withIdx k l).map Prod.fst = List.range' k l.length := by
  intro l
  induction l with
  | nil => intro k; rfl
  | cons a as ih =>
    intro k
    simp only [withIdx, List.map_cons, List.length_cons, List.range'_succ]
    rw [ih (k + 1)]

theorem tasksOf_map_fst (pirate_resources : List String) (fs : List Fields) :
    (tasksOf pirate_resources fs).map Prod.fst =
      ((withIdx 0 fs).filter (fun p => probeCond pirate_resources p.2)).map Prod.fst := by
  rw [tasksOf, List.map_map]
  rfl

theorem tasksOf_fst_nodup (pirate_resources : List String) (fs : List Fields) :
    ((tasksOf pirate_resources fs).map Prod.fst).Nodup := by
  rw [tasksOf_map_fst]
  have hsub : List.Sublist
      (((withIdx 0 fs).filter (fun p => probeCond pirate_resources p.2)).map Prod.fst)
      ((withIdx 0 fs).map Prod.fst) :=
    List.Sublist.map Prod.fst (List.filter_sublist (withIdx 0 fs))
  have hnd : ((withIdx 0 fs).map Prod.fst).Nodup := by
    rw [withIdx_map_fst fs 0]
    exact List.nodup_range' 0 fs.length
  exact List.Nodup.sublist hsub hnd

/-! ### Lemmas about the journal dict and deduplication -/

theorem lookup_isSome_iff_contains (k : String) :
    ∀ (jf : List (String × String)),
      (jf.lookup k).isSome = (jf.map Prod.fst).contains k := by
  intro jf
  induction jf with
  | nil => rfl
  | cons p rest ih =>
    obtain ⟨a, b⟩ := p
    by_cases h : k = a
    · subst h
      simp [List.lookup]
    · have hbeq : (k == a) = false := beq_eq_false_iff_ne.mpr h
      simp only [List.lookup, hbeq, List.map_cons, List.contains_cons, Bool.false_or]
      exact ih

theorem dedupAcc_congr (l : List String) :
    ∀ (s1 s2 : List String), (∀ x, s1.contains x = s2.contains x) →
      dedupAcc s1 l = dedupAcc s2 l := by
  induction l with
  | nil => intro s1 s2 _; rfl
  | cons x xs ih =>
    intro s1 s2 hs
    rw [dedupAcc, dedupAcc, hs x]
    by_cases h : s2.contains x = true
    · simp only [if_pos h]
      exact ih s1 s2 hs
    · simp only [if_neg h]
      have hcons : ∀ y, (x :: s1).contains y = (x :: s2).contains y := by
        intro y
        simp only [List.contains_cons, hs y]
      rw [ih (x :: s1) (x :: s2) hcons]

theorem dedupAcc_sound (l : List String) :
    ∀ (seen : List String),
      (dedupAcc seen l).Nodup ∧ ∀ x ∈ dedupAcc seen l, seen.contains x = false := by
  induction l with
  | nil =>
    intro seen
    exact ⟨List.nodup_nil, fun x hx => absurd hx (List.not_mem_nil x)⟩
  | cons a as ih =>
    intro seen
    rw [dedupAcc]
    by_cases h : seen.contains a = true
    · rw [if_pos h]
      exact ih seen
    · rw [if_neg h]
      obtain ⟨ihnd, ihseen⟩ := ih (a :: seen)
      constructor
      · rw [List.nodup_cons]
        refine ⟨fun hmem => ?_, ihnd⟩
        have := ihseen a hmem
        simp [List.contains_cons] at this
      · intro x hx
        rcases List.mem_cons.mp hx with hxa | hxs
        · rw [hxa]
          exact Bool.eq_false_iff.mpr h
        · have := ihseen x hxs
          simp only [List.contains_cons, Bool.or_eq_false_iff] at this
          exact this.2

theorem addJournal_keys (jf : List (String × String)) (f : Fields) :
    (addJournal jf f).map Prod.fst =
      if (jf.map Prod.fst).contains f.journal_issn then jf.map Prod.fst
      else jf.map Prod.fst ++ [f.journal_issn] := by
  rw [addJournal, lookup_isSome_iff_contains]
  by_cases h : (jf.map Prod.fst).contains f.journal_issn = true
  · rw [if_pos h, if_pos h]
  · rw [if_neg h, if_neg h, List.map_append]
    rfl

theorem contains_append_singleton (y : String) :
    ∀ (l : List String) (x : String), (l ++ [y]).contains x = (y :: l).contains x := by
  intro l
  induction l with
  | nil => intro x; rfl
  | cons a as ih =>
    intro x
    simp only [List.cons_append, List.contains_cons, ih x]
    cases x == a <;> cases x == y <;> simp

theorem foldl_addJournal_keys :
    ∀ (fs : List Fields) (jf : List (String × String)),
      ((fs.foldl addJournal jf).map Prod.fst) =
        jf.map Prod.fst ++ dedupAcc (jf.map Prod.fst) (fs.map Fields.journal_issn) := by
  intro fs
  induction fs with
  | nil => intro jf; simp [dedupAcc]
  | cons f rest ih =>
    intro jf
    rw [List.foldl_cons, List.map_cons, dedupAcc, ih (addJournal jf f), addJournal_keys]
    by_cases h : (jf.map Prod.fst).contains f.journal_issn = true
    · rw [if_pos h, if_pos h]
    · rw [if_neg h, if_neg h]
      have hcongr : dedupAcc (jf.map Prod.fst ++ [f.journal_issn])
          (rest.map Fields.journal_issn) =
          dedupAcc (f.journal_issn :: jf.map Prod.fst) (rest.map Fields.journal_issn) :=
        dedupAcc_congr (rest.map Fields.journal_issn) _ _
          (fun x => contains_append_singleton f.journal_issn (jf.map Prod.fst) x)
      rw [hcongr, List.append_assoc]
      rfl

theorem buildJournalFullname_keys (fs : List Fields) :
    (buildJournalFullname fs).map Prod.fst = dedupAcc [] (fs.map Fields.journal_issn) := by
  rw [buildJournalFullname, foldl_addJournal_keys fs []]
  rfl

theorem buildJournalFullname_keys_nodup (fs : List Fields) :
    ((buildJournalFullname fs).map Prod.fst).Nodup := by
  rw [buildJournalFullname_keys]
  exact (dedupAcc_sound (fs.map Fields.journal_issn) []).1

/-! ### Lemmas about field extraction, score assignment and the pipeline -/

theorem listGet_some {α : Type} (l : List α) (i : Nat) (x : α) (h : l.get? i = some x) :
    listGet l i = .ok x := by
  rw [listGet, h]

theorem listGet_none {α : Type} (l : List α) (i : Nat) (h : l.get? i = none) :
    listGet l i = .error .indexError := by
  rw [listGet, h]

theorem pureE {β : Type} (x : β) : (pure x : Except PyErr β) = .ok x := rfl

/-- Full characterization of a successful field extraction. -/
theorem extractFields_ok_spec (a : RawItem) (f : Fields) (h : extractFields a = .ok f) :
    ∃ t u jt ji,
      (a.title.getD ["Без названия. Название не найдено"]).get? 0 = some t ∧
      (a.license.getD ["unknown"]).get? 0 = some u ∧
      (a.containerTitle.getD [""]).get? 0 = some jt ∧
      (a.issn.getD ["not-found-print-issn", "not-found-online-issn"]).get? 1 = some ji ∧
      f = ⟨t,
        ((a.author.getD []).take 2).map
          (fun au => trimSpaces ((au.given.getD "") ++ " " ++ (au.family.getD ""))),
        analyze_wiley_license_url u, jt, ji, a.doi.getD "Не найдено"⟩ := by
  rw [extractFields] at h
  cases ht : (a.title.getD ["Без названия. Название не найдено"]).get? 0 with
  | none => rw [listGet_none _ _ ht, bindE_error] at h; cases h
  | some t =>
    rw [listGet_some _ _ _ ht] at h
    simp only [bindE_ok] at h
    cases hu : (a.license.getD ["unknown"]).get? 0 with
    | none => rw [listGet_none _ _ hu, bindE_error] at h; cases h
    | some u =>
      rw [listGet_some _ _ _ hu] at h
      simp only [bindE_ok] at h
      cases hjt : (a.containerTitle.getD [""]).get? 0 with
      | none => rw [listGet_none _ _ hjt, bindE_error] at h; cases h
      | some jt =>
        rw [listGet_some _ _ _ hjt] at h
        simp only [bindE_ok] at h
        cases hji : (a.issn.getD ["not-found-print-issn", "not-found-online-issn"]).get? 1 with
        | none => rw [listGet_none _ _ hji, bindE_error] at h; cases h
        | some ji =>
          rw [listGet_some _ _ _ hji] at h
          simp only [bindE_ok, pureE] at h
          injection h with h2
          subst h2
          exact ⟨t, u, jt, ji, rfl, rfl, rfl, rfl, rfl⟩

/-- A present `ISSN` list with fewer than two entries makes extraction raise
`IndexError`, whatever the other fields hold. -/
theorem extractFields_short_issn (a : RawItem) (l : List String)
    (hp : a.issn = some l) (hlen : l.length < 2) :
    extractFields a = .error .indexError := by
  have hnone : (a.issn.getD ["not-found-print-issn", "not-found-online-issn"]).get? 1 = none := by
    rw [hp, Option.getD_some]
    exact List.get?_eq_none.mpr (by omega)
  rw [extractFields]
  cases ht : (a.title.getD ["Без названия. Название не найдено"]).get? 0 with
  | none => rw [listGet_none _ _ ht, bindE_error]
  | some t =>
    rw [listGet_some _ _ _ ht]
    simp only [bindE_ok]
    cases hu : (a.license.getD ["unknown"]).get? 0 with
    | none => rw [listGet_none _ _ hu, bindE_error]
    | some u =>
      rw [listGet_some _ _ _ hu]
      simp only [bindE_ok]
      cases hjt : (a.containerTitle.getD [""]).get? 0 with
      | none => rw [listGet_none _ _ hjt, bindE_error]
      | some jt =>
        rw [listGet_some _ _ _ hjt]
        simp only [bindE_ok]
        rw [listGet_none _ _ hnone, bindE_error]

theorem assignOne_ok_view (m : List (String × ℚ)) (a b : Article)
    (h : assignOne m a = .ok b) :
    coreView b = coreView a ∧ m.lookup a.journal_issn = some b.impact_factor := by
  rw [assignOne] at h
  cases hl : m.lookup a.journal_issn with
  | none => rw [hl] at h; cases h
  | some v =>
    rw [hl] at h
    injection h with h2
    subst h2
    exact ⟨rfl, rfl⟩

theorem mapME_assignOne_view (m : List (String × ℚ)) (l l2 : List Article)
    (h : mapME (assignOne m) l = .ok l2) :
    ∀ i, (l2.get? i).map coreView = (l.get? i).map coreView := by
  intro i
  cases hi : l.get? i with
  | none =>
    have hlen := mapME_ok_length _ _ _ h
    have h2 : l2.get? i = none := by
      rw [List.get?_eq_none] at hi ⊢
      omega
    rw [h2]
  | some a =>
    obtain ⟨b, hab, hb⟩ := mapME_ok_get _ _ _ h i a hi
    rw [hb]
    have hview := (assignOne_ok_view m a b hab).1
    simp [hview]

theorem mapME_assignOne_impact (m : List (String × ℚ)) (l l2 : List Article)
    (h : mapME (assignOne m) l = .ok l2) :
    ∀ b, b ∈ l2 → m.lookup b.journal_issn = some b.impact_factor := by
  intro b hb
  obtain ⟨a, _, hab⟩ := mapME_ok_mem_rev _ _ _ h b hb
  obtain ⟨hview, hlook⟩ := assignOne_ok_view m a b hab
  have hissn : b.journal_issn = a.journal_issn := congrArg (fun p => p.2.2.1) hview
  rw [hissn, hlook]

theorem map_mkArticle_view (fs : List Fields) :
    ∀ (i : Nat), ((fs.map mkArticle).get? i).map coreView = (fs.get? i).map fieldsView := by
  induction fs with
  | nil => intro i; cases i <;> rfl
  | cons f rest ih =>
    intro i
    cases i with
    | zero => rfl
    | succ j => simpa using ih j

/-- Unfolding of one pipeline run with an explicit completion order, once the
extraction phase is known to succeed. -/
theorem process_order_eq (order : List (Nat × String)) (pr : List String)
    (fetch : String → FetchOutcome) (resolve : String → ResolveOutcome)
    (items : List RawItem) (fs : List Fields)
    (hfs : mapME extractFields items = .ok fs) :
    process_articles_order order pr fetch resolve items =
      mapME (assignOne (ifParser resolve (buildJournalFullname fs)))
        (applyTasks fetch order (fs.map mkArticle)) := by
  simp only [process_articles_order, hfs, bindE_ok, runTasks_eq_applyTasks]

/-- Same unfolding for the source ordering of the task list. -/
theorem process_eq (pr : List String) (fetch : String → FetchOutcome)
    (resolve : String → ResolveOutcome) (items : List RawItem) (fs : List Fields)
    (hfs : mapME extractFields items = .ok fs) :
    process_articles pr fetch resolve items =
      mapME (assignOne (ifParser resolve (buildJournalFullname fs)))
        (applyTasks fetch (tasksOf pr fs) (fs.map mkArticle)) := by
  simp only [process_articles, hfs, bindE_ok, runTasks_eq_applyTasks]

/-- Pointwise correspondence between output records and extracted fields, for
any completion order of the probes. -/
theorem process_order_pointwise (order : List (Nat × String)) (pr : List String)
    (fetch : String → FetchOutcome) (resolve : String → ResolveOutcome)
    (items : List RawItem) (fs : List Fields) (out : List Article)
    (hfs : mapME extractFields items = .ok fs)
    (hout : process_articles_order order pr fetch resolve items = .ok out) :
    out.length = items.length ∧
      ∀ i, (out.get? i).map coreView = (fs.get? i).map fieldsView := by
  rw [process_order_eq order pr fetch resolve items fs hfs] at hout
  have hlen0 := mapME_ok_length _ _ _ hout
  have hlen1 := applyTasks_length fetch order (fs.map mkArticle)
  have hlen2 : fs.length = items.length := mapME_ok_length _ _ _ hfs
  constructor
  · rw [hlen0, hlen1, List.length_map, hlen2]
  · intro i
    rw [mapME_assignOne_view _ _ _ hout i, applyTasks_get_coreView fetch order _ i,
      map_mkArticle_view fs i]

theorem ifParserCalls_le (resolve : String → ResolveOutcome) :
    ∀ (l : List (String × String)), (ifParserCalls resolve l).length ≤ l.length := by
  intro l
  induction l with
  | nil => exact Nat.le_refl 0
  | cons p rest ih =>
    obtain ⟨i, name⟩ := p
    rw [ifParserCalls]
    cases h : resolve name with
    | httpError => simp only [List.length_cons]; omega
    | timeoutError => simp only [List.length_cons]; omega
    | otherError => simp only [List.length_cons]; omega
    | extractFail => simp only [List.length_cons, List.length_nil]; omega
    | score q => simp only [List.length_cons]; omega

theorem ifParserCalls_no_break (resolve : String → ResolveOutcome) :
    ∀ (l : List (String × String)),
      (∀ p ∈ l, resolve p.2 ≠ ResolveOutcome.extractFail) →
      ifParserCalls resolve l = l.map Prod.snd := by
  intro l
  induction l with
  | nil => intro _; rfl
  | cons p rest ih =>
    intro hno
    obtain ⟨i, name⟩ := p
    have hhd : resolve name ≠ ResolveOutcome.extractFail :=
      hno (i, name) (List.mem_cons_self _ _)
    have htl : ∀ q ∈ rest, resolve q.2 ≠ ResolveOutcome.extractFail :=
      fun q hq => hno q (List.mem_cons_of_mem _ hq)
    rw [ifParserCalls, List.map_cons]
    cases h : resolve name with
    | httpError => rw [ih htl]
    | timeoutError => rw [ih htl]
    | otherError => rw [ih htl]
    | extractFail => exact absurd h hhd
    | score q => rw [ih htl]

theorem process_ok_same_impact (pr : List String) (fetch : String → FetchOutcome)
    (resolve : String → ResolveOutcome) (items : List RawItem) (out : List Article)
    (hout : process_articles pr fetch resolve items = .ok out) :
    ∀ a ∈ out, ∀ b ∈ out, a.journal_issn = b.journal_issn →
      a.impact_factor = b.impact_factor := by
  cases hfs : mapME extractFields items with
  | error e => rw [process_articles, hfs, bindE_error] at hout; cases hout
  | ok fs =>
    rw [process_eq pr fetch resolve items fs hfs] at hout
    intro a ha b hb hab
    have h1 := mapME_assignOne_impact _ _ _ hout a ha
    have h2 := mapME_assignOne_impact _ _ _ hout b hb
    rw [hab] at h1
    rw [h1] at h2
    exact Option.some.inj h2

/-! ### Claim theorems -/

/-- C1: the claim says that with probing enabled no probe is ever issued for a
record classified FREE and that such a record keeps availability status
"Не проверено" (not probed).  The code violates this: at main.py line 133 the
string `license` is compared with the enum member `LicenseType.FREE`, a test
that is always unequal in Python, so with probing enabled the probe task is
created for every record.  Evaluated here on a Creative-Commons record: its
access category is FREE, yet its availability field ends up holding the probe
result "Найдено" instead of "Не проверено". -/
theorem c1_probe_issued_for_free_record :
    (process_articles ["sci-hub"] fetchFound resolveConst [itemCC]).toOption.map
        (fun l => l.map (fun a => (a.access, a.pirate_resource)))
      = some [(LicenseType.FREE.value, "Найдено")]
    ∧ ("Найдено" : String) ≠ "Не проверено"
    ∧ pyStrEnumEq LicenseType.FREE.value LicenseType.FREE = false :=
  ⟨rfl, by decide, rfl⟩

/-- C2: the claim says that when the resolver hits the structural-mismatch
condition partway through a batch, the orchestrator still returns the full
record collection with sentinel -1 for unresolved journals and one
stage-level error.  The code instead crashes: `if_parser` breaks and returns
a partial dict, and `process_articles` then raises `KeyError` at line 145 on
the first record whose journal is missing from that dict, so no collection is
returned.  Evaluated on three journals with the mismatch on the second: the
resolver output retains only the first journal, and the run ends in
`KeyError`. -/
theorem c2_format_change_crashes_run :
    ifParser resolveC2 (buildJournalFullname fsABC) = [("1111-1111", 5)]
    ∧ process_articles [] fetchFound resolveC2 [itemA, itemB, itemC] =
        .error .keyError :=
  ⟨rfl, rfl⟩

/-- C3: the claim says that on an extraction failure the resolver stops and
surfaces a distinct "upstream format changed" error to its caller.  The code
does stop (the `break` at if_parser.py line 45) but surfaces no error value:
it returns the partial dict, with the failed and subsequent keys simply
absent, while a fetch failure stores -1 and continues.  Evaluated on three
keys: extraction failure at the second key yields the plain dict with one
entry (the third key is never fetched), whereas an HTTP failure at the second
key yields all three entries with -1 for the second. -/
theorem c3_resolver_partial_return_no_error :
    ifParser resolveC3a jfC3 = [("i1", 5)]
    ∧ ifParserCalls resolveC3a jfC3 = ["n1", "n2"]
    ∧ ifParser resolveC3b jfC3 = [("i1", 5), ("i2", -1), ("i3", 7)] :=
  ⟨rfl, rfl, rfl⟩

/-- C4 counterexample: the claim says a RawItem with absent license URL gets
access category UNKNOWN.  On the code, the absent key is replaced by the
placeholder string "unknown" (main.py line 114), which is non-empty and
matches no marker, so the classifier falls through to the default-deny branch
and the record gets NOT FREE.  The classifier itself does map empty input to
UNKNOWN, and "unknown" to NOT FREE, as the last two conjuncts record. -/
theorem c4_counterexample_absent_license_not_unknown :
    (process_articles [] fetchFound resolveConst [itemNoLicense]).toOption.map
        (fun l => l.map Article.access) = some [LicenseType.NOT_FREE.value]
    ∧ LicenseType.NOT_FREE.value ≠ LicenseType.UNKNOWN.value
    ∧ analyze_wiley_license_url "" = LicenseType.UNKNOWN.value
    ∧ analyze_wiley_license_url "unknown" = LicenseType.NOT_FREE.value :=
  ⟨rfl, by decide, rfl, rfl⟩

/-- C4 (amended): for every RawItem whose license URL is absent, the enriched
record delivered by the pipeline has access category NOT FREE, because the
pipeline substitutes the non-empty placeholder "unknown", which matches no
marker of the classifier and therefore falls to the default-deny branch. -/
theorem c4_absent_license_default_deny (pr : List String)
    (fetch : String → FetchOutcome) (resolve : String → ResolveOutcome)
    (items : List RawItem) (out : List Article) (i : Nat) (it : RawItem)
    (hout : process_articles pr fetch resolve items = .ok out)
    (hi : items.get? i = some it) (hlic : it.license = none) :
    (out.get? i).map Article.access = some LicenseType.NOT_FREE.value := by
  cases hfs : mapME extractFields items with
  | error e => rw [process_articles, hfs, bindE_error] at hout; cases hout
  | ok fs =>
    have hout2 : process_articles_order (tasksOf pr fs) pr fetch resolve items =
        .ok out := by
      rw [process_order_eq (tasksOf pr fs) pr fetch resolve items fs hfs]
      rw [process_eq pr fetch resolve items fs hfs] at hout
      exact hout
    obtain ⟨hlen, hview⟩ :=
      process_order_pointwise (tasksOf pr fs) pr fetch resolve items fs out hfs hout2
    obtain ⟨f, hf, hfsi⟩ := mapME_ok_get extractFields items fs hfs i it hi
    obtain ⟨t, u, jt, ji, ht2, hu, hjt, hji, hfeq⟩ := extractFields_ok_spec it f hf
    rw [hlic, Option.getD_none] at hu
    injection hu with hu2
    have hview_i := hview i
    rw [hfsi] at hview_i
    cases houti : out.get? i with
    | none =>
      rw [houti] at hview_i
      exact Option.noConfusion hview_i
    | some a =>
      rw [houti] at hview_i
      injection hview_i with hv
      have hacc : a.access = f.access := congrArg (fun p => p.2.2.2) hv
      show some a.access = some LicenseType.NOT_FREE.value
      rw [hacc, hfeq]
      show some (analyze_wiley_license_url u) = some LicenseType.NOT_FREE.value
      rw [← hu2]
      rfl

/-- C4 witness: `c4_absent_license_default_deny` applied to the concrete
license-less item. -/
theorem c4_witness :
    process_articles [] fetchFound resolveConst [itemNoLicense] = .ok outNoLicense
    ∧ (outNoLicense.get? 0).map Article.access = some LicenseType.NOT_FREE.value :=
  ⟨rfl, c4_absent_license_default_deny [] fetchFound resolveConst [itemNoLicense]
    outNoLicense 0 itemNoLicense rfl rfl rfl⟩

/-- C5: the claim says a probe whose request raises a non-timeout transport
failure returns the "error" status and one whose timeout expires returns the
"timeout" status.  The first half holds, but on timeout expiry the code also
returns "Ошибка" (error): the `except Exception` clause at main.py line 97
precedes `except asyncio.TimeoutError` (line 100) and `asyncio.TimeoutError`
subclasses `Exception`, so the timeout handler that would return "Таймаут" is
unreachable.  Neither path propagates the exception. -/
theorem c5_timeout_conflated_with_error :
    check_sci_hub fetchTimeout "10.1/x" = .ok "Ошибка"
    ∧ check_sci_hub fetchBroken "10.1/x" = .ok "Ошибка"
    ∧ NetExn.isSubclassOfException .timeoutError = true
    ∧ ("Ошибка" : String) ≠ "Таймаут" :=
  ⟨rfl, rfl, rfl, by decide⟩

/-- C6: every non-empty license URL that contains none of the classifier
markers (no Creative-Commons marker, no publisher-domain terms/copyright
combination, no paywall marker, no open-license marker) is classified
NOT FREE: the default-deny final branch of `analyze_wiley_license_url`. -/
theorem c6_default_deny (url : String) (hne : ¬ url = "")
    (h1 : containsSub (toLowerStr url) "creativecommons.org" = false)
    (h2 : (containsSub (toLowerStr url) "wiley.com" &&
      (containsSub (toLowerStr url) "terms" ||
        containsSub (toLowerStr url) "copyright")) = false)
    (h3 : containsSub (toLowerStr url) "rights-and-permissions" = false)
    (h4 : containsSub (toLowerStr url) "subscription" = false)
    (h5 : containsSub (toLowerStr url) "copyright" = false)
    (h6 : containsSub (toLowerStr url) "publicdomain" = false)
    (h7 : containsSub (toLowerStr url) "pd" = false)
    (h8 : containsSub (toLowerStr url) "cc0" = false) :
    analyze_wiley_license_url url = LicenseType.NOT_FREE.value := by
  cases hw : containsSub (toLowerStr url) "wiley.com" with
  | false =>
    simp [analyze_wiley_license_url, hne, h1, hw, h3, h4, h5, h6, h7, h8]
  | true =>
    rw [hw, Bool.true_and, h5, Bool.or_false] at h2
    simp [analyze_wiley_license_url, hne, h1, hw, h2, h3, h4, h5, h6, h7, h8]

/-- C6 witness: `c6_default_deny` applied to a concrete marker-free URL. -/
theorem c6_witness :
    analyze_wiley_license_url "https://example.net/eula" =
      LicenseType.NOT_FREE.value :=
  c6_default_deny "https://example.net/eula" (by decide) (by decide) (by decide)
    (by decide) (by decide) (by decide) (by decide) (by decide) (by decide)

/-- C7: every license URL containing the Creative-Commons marker is
classified FREE, whatever other markers it also contains: the
Creative-Commons test is the first branch of `analyze_wiley_license_url`. -/
theorem c7_creative_commons_free (url : String)
    (hcc : containsSub (toLowerStr url) "creativecommons.org" = true) :
    analyze_wiley_license_url url = LicenseType.FREE.value := by
  have hne : ¬ url = "" := by
    intro h
    rw [h] at hcc
    exact absurd hcc (by decide)
  simp [analyze_wiley_license_url, hne, hcc]

/-- C7 witness: `c7_creative_commons_free` applied to a URL that carries both
the Creative-Commons marker and the paywall marker "copyright". -/
theorem c7_witness :
    containsSub (toLowerStr "https://creativecommons.org/licenses/by/4.0#copyright")
      "copyright" = true
    ∧ analyze_wiley_license_url
        "https://creativecommons.org/licenses/by/4.0#copyright" =
      LicenseType.FREE.value :=
  ⟨rfl, c7_creative_commons_free
    "https://creativecommons.org/licenses/by/4.0#copyright" (by decide)⟩

/-- C8 counterexample: the claim counts lookups against the distinct
NON-EMPTY journal identifiers.  An item whose `ISSN` list has an empty second
entry gets the empty string as journal identifier; the code still inserts it
into the journal dict and the resolver still fetches its page, so one lookup
is issued while the number of distinct non-empty identifiers is zero. -/
theorem c8_counterexample_empty_identifier :
    mapME extractFields [itemEmptyIssn] = .ok fsEmptyIssn
    ∧ (buildJournalFullname fsEmptyIssn).map Prod.fst = [""]
    ∧ claimDistinctNonemptyIds fsEmptyIssn = []
    ∧ ((buildJournalFullname fsEmptyIssn).map Prod.fst).length ≠
        (claimDistinctNonemptyIds fsEmptyIssn).length
    ∧ ifParserCalls resolveConst (buildJournalFullname fsEmptyIssn) =
        ["Journal+E-p-"] :=
  ⟨rfl, rfl, rfl, by decide, rfl⟩

/-- C8 (amended): the journal dict handed to the resolver has exactly the
distinct extracted journal identifiers of the batch as keys, empty or
placeholder identifiers included, each occurring once; the resolver issues at
most one page fetch per key, and exactly one per key in a run without an
extraction failure; and in a successful run all records sharing a journal
identifier receive the same impact score. -/
theorem c8_dedup_one_lookup_per_identifier :
    (∀ fs : List Fields,
      (buildJournalFullname fs).map Prod.fst =
        dedupAcc [] (fs.map Fields.journal_issn)
      ∧ ((buildJournalFullname fs).map Prod.fst).Nodup)
    ∧ (∀ (resolve : String → ResolveOutcome) (l : List (String × String)),
        (ifParserCalls resolve l).length ≤ l.length)
    ∧ (∀ (resolve : String → ResolveOutcome) (l : List (String × String)),
        (∀ p ∈ l, resolve p.2 ≠ ResolveOutcome.extractFail) →
        ifParserCalls resolve l = l.map Prod.snd)
    ∧ (∀ (pr : List String) (fetch : String → FetchOutcome)
        (resolve : String → ResolveOutcome) (items : List RawItem)
        (out : List Article),
        process_articles pr fetch resolve items = .ok out →
        ∀ a ∈ out, ∀ b ∈ out, a.journal_issn = b.journal_issn →
          a.impact_factor = b.impact_factor) :=
  ⟨fun fs => ⟨buildJournalFullname_keys fs, buildJournalFullname_keys_nodup fs⟩,
   fun resolve l => ifParserCalls_le resolve l,
   fun resolve l h => ifParserCalls_no_break resolve l h,
   fun pr fetch resolve items out hout =>
     process_ok_same_impact pr fetch resolve items out hout⟩

/-- C8 witness: `c8_dedup_one_lookup_per_identifier` applied to a concrete
two-record batch sharing one journal. -/
theorem c8_witness :
    (buildJournalFullname fsEmptyIssn).map Prod.fst =
      dedupAcc [] (fsEmptyIssn.map Fields.journal_issn)
    ∧ ifParserCalls resolveConst jfC3 = jfC3.map Prod.snd
    ∧ process_articles [] fetchFound resolveConst [itemB, itemB2] = .ok outShared
    ∧ (outShared.getD 0 artDefault).impact_factor =
        (outShared.getD 1 artDefault).impact_factor :=
  ⟨(c8_dedup_one_lookup_per_identifier.1 fsEmptyIssn).1,
   c8_dedup_one_lookup_per_identifier.2.2.1 resolveConst jfC3 (by decide),
   rfl,
   c8_dedup_one_lookup_per_identifier.2.2.2 [] fetchFound resolveConst
     [itemB, itemB2] outShared rfl (outShared.getD 0 artDefault) (by decide)
     (outShared.getD 1 artDefault) (by decide) (by decide)⟩

/-- C9: for any input batch, any oracles, and any completion order of the
probe tasks (any permutation of the task list built by the orchestrator), a
successful run yields one output record per input item, in exactly the input
order, each carrying the title, DOI, journal identifier and access category
extracted from its own item; and the result equals the run with the source
completion order, so the probe completion order cannot drop, insert or
reorder records. -/
theorem c9_order_preserved (pr : List String) (fetch : String → FetchOutcome)
    (resolve : String → ResolveOutcome) (items : List RawItem)
    (order : List (Nat × String)) (fs : List Fields) (out : List Article)
    (hfs : mapME extractFields items = .ok fs)
    (hperm : List.Perm order (tasksOf pr fs))
    (hout : process_articles_order order pr fetch resolve items = .ok out) :
    process_articles_order order pr fetch resolve items =
      process_articles pr fetch resolve items
    ∧ out.length = items.length
    ∧ ∀ i, (out.get? i).map coreView = (fs.get? i).map fieldsView := by
  have heq : process_articles_order order pr fetch resolve items =
      process_articles pr fetch resolve items := by
    rw [process_order_eq order pr fetch resolve items fs hfs,
      process_eq pr fetch resolve items fs hfs,
      applyTasks_perm fetch order (tasksOf pr fs) hperm (tasksOf_fst_nodup pr fs)
        (fs.map mkArticle)]
  obtain ⟨hlen, hview⟩ :=
    process_order_pointwise order pr fetch resolve items fs out hfs hout
  exact ⟨heq, hlen, hview⟩

/-- C9 witness: `c9_order_preserved` applied to a two-item batch whose two
probe tasks complete in reversed order. -/
theorem c9_witness :
    process_articles_order orderW9 ["sci-hub"] fetchFound resolveConst itemsW9 =
      process_articles ["sci-hub"] fetchFound resolveConst itemsW9
    ∧ outW9.length = itemsW9.length
    ∧ (outW9.get? 0).map coreView = (fsW9.get? 0).map fieldsView
    ∧ (outW9.get? 1).map coreView = (fsW9.get? 1).map fieldsView := by
  have h := c9_order_preserved ["sci-hub"] fetchFound resolveConst itemsW9
    orderW9 fsW9 outW9 rfl (by decide) rfl
  exact ⟨h.1, h.2.1, h.2.2 0, h.2.2 1⟩

/-- C10: an item whose `ISSN` field is present but holds fewer than two
entries makes the field extraction raise `IndexError` (the identifier is read
from the second element at main.py line 116), so a batch containing such an
item never yields a record collection; the placeholder fallback applies only
when the field is entirely absent, in which case the extracted identifier is
the second default entry. -/
theorem c10_short_issn_index_error (it : RawItem) (l : List String)
    (hp : it.issn = some l) (hlen : l.length < 2) :
    extractFields it = .error .indexError
    ∧ (∀ (pr : List String) (fetch : String → FetchOutcome)
        (resolve : String → ResolveOutcome) (items : List RawItem),
        it ∈ items →
        ∀ out, process_articles pr fetch resolve items ≠ .ok out)
    ∧ (∀ (a : RawItem) (f : Fields), a.issn = none → extractFields a = .ok f →
        f.journal_issn = "not-found-online-issn") := by
  refine ⟨extractFields_short_issn it l hp hlen, ?_, ?_⟩
  · intro pr fetch resolve items hmem out hok
    cases hfs : mapME extractFields items with
    | error e => rw [process_articles, hfs, bindE_error] at hok; cases hok
    | ok fs =>
      obtain ⟨f, hf⟩ := mapME_ok_of_mem extractFields items fs hfs it hmem
      rw [extractFields_short_issn it l hp hlen] at hf
      cases hf
  · intro a f hnone hok
    obtain ⟨t, u, jt, ji, ht, hu, hjt, hji, hf⟩ := extractFields_ok_spec a f hok
    rw [hnone, Option.getD_none] at hji
    injection hji with h2
    rw [hf]
    exact h2.symm

/-- C10 witness: `c10_short_issn_index_error` applied to the concrete item
with a one-entry `ISSN` list. -/
theorem c10_witness :
    (["1234-5678"] : List String).length < 2
    ∧ extractFields itemShortIssn = .error .indexError
    ∧ process_articles [] fetchFound resolveConst [itemShortIssn] ≠ .ok [] := by
  have h := c10_short_issn_index_error itemShortIssn ["1234-5678"] rfl (by decide)
  exact ⟨by decide, h.1,
    h.2.1 [] fetchFound resolveConst [itemShortIssn] (by decide) []⟩

end ScienceParser
